import Mathlib

/-!
Verification of the Liveblocks room core (packages/liveblocks-core/src/room.ts).

The development shallowly embeds the room state machine's storage / history /
flush pipeline: the outbound buffer, the unacknowledged-op ledger, the undo and
redo stacks, `applyOps` with its op-source decision, `tryFlushing`,
`flushDataToMessages`, `broadcastEvent`, `batch`, `undo` / `redo`,
`pauseHistory` / `resumeHistory`, `applyAndSendOps`, the
`INITIAL_STORAGE_STATE` handler and `getStorageStatus`.

JavaScript `Map`s (which have unique keys and preserve insertion order) are
embedded as association lists with replace-or-append `set` and key-filtering
`delete`.  Wall-clock time (`Date.now()`) is passed explicitly as a `now`
argument.  Calls to `effects.send` and to `applyOp` are recorded in ghost log
fields (`sent`, `trace`) of the machine context so that theorems can speak
about the frames emitted and the op sources used; the logs influence no
behaviour.  The CRDT node layer (`LiveObject` & co.) is outside the room core:
the room delegates to it through the `_apply` / `_attachChild` interface, which
is taken here as an arbitrary function parameter `NodeApply`.
-/

namespace Liveblocks

/-- Association-list lookup, embedding JS `Map.get`. -/
def mapGet {α : Type} (m : List (String × α)) (k : String) : Option α :=
  match m with
  | [] => none
  | (k1, v) :: rest => if k1 = k then some v else mapGet rest k

/-- Association-list insertion, embedding JS `Map.set`: replace the binding in
place when the key is present, append otherwise. -/
def mapSet {α : Type} (m : List (String × α)) (k : String) (v : α) :
    List (String × α) :=
  match m with
  | [] => [(k, v)]
  | (k1, v1) :: rest =>
      if k1 = k then (k, v) :: rest else (k1, v1) :: mapSet rest k v

/-- Association-list removal, embedding JS `Map.delete` (keys are unique in
a JS map, so filtering every binding of `k` is faithful). -/
def mapDelete {α : Type} (m : List (String × α)) (k : String) :
    List (String × α) :=
  match m with
  | [] => []
  | (k1, v1) :: rest =>
      if k1 = k then mapDelete rest k else (k1, v1) :: mapDelete rest k

/-- Embedding of JS `Map.has` (also the boolean result of `Map.delete`). -/
def mapContains {α : Type} (m : List (String × α)) (k : String) : Bool :=
  (mapGet m k).isSome

/-- Op codes of the storage protocol (protocol/Op.ts).  Modelled from the spec:
the Op variants are CreateObject, CreateList, CreateMap, CreateRegister,
UpdateObject, DeleteObjectKey, SetParentKey, DeleteCrdt and Ack. -/
inductive OpCode where
  | CREATE_OBJECT | CREATE_LIST | CREATE_MAP | CREATE_REGISTER
  | UPDATE_OBJECT | DELETE_OBJECT_KEY | SET_PARENT_KEY | DELETE_CRDT
  | ACK
deriving DecidableEq, Repr

/-- A storage op.  `opId` is assigned at dispatch time and is optional until
then; `id` is the target node (or the new node for the create ops); the create
ops carry `parentId` and `parentKey`.  Op payloads (key sets, values,
positions) live in the CRDT layer and are not needed by the room core. -/
structure Op where
  type : OpCode
  opId : Option String
  id : String
  parentId : Option String
  parentKey : Option String
deriving DecidableEq, Repr

/-- Modelled from the spec: an Ack op is a server echo with no state effect
(`isAckOp` in protocol/Op.ts). -/
def Op.isAck (op : Op) : Bool := op.type == OpCode.ACK

/-- The opId of an op that has gone through dispatch.  room.ts asserts
non-nullity with `nn(op.opId)`; ops reaching these code paths always carry an
opId, so the `""` default is never observable. -/
def opIdOrEmpty (op : Op) : String := op.opId.getD ""

/-- The local user's presence: a plain record, embedded as an association list
with opaque (integer) values. -/
abbrev Presence := List (String × Int)

/-- A presence patch (`Partial<TPresence>`): an explicitly-`undefined` entry is
embedded as a `none` value. -/
abbrev PresencePatch := List (String × Option Int)

/-- A history entry: either a storage op or a presence delta. -/
inductive HistoryOp where
  | op (o : Op)
  | presence (data : PresencePatch)
deriving DecidableEq, Repr

/-- Op source decided by `applyOps` for each non-presence op. -/
inductive OpSource where
  | UNDOREDO_RECONNECT | ACK | REMOTE
deriving DecidableEq, Repr

/-- Outbound client messages (`ClientMsg`). Broadcast payloads are opaque. -/
inductive ClientMsg where
  | updatePresence (targetActor : Option Int) (data : PresencePatch)
  | broadcastedEvent (event : Int)
  | updateStorage (ops : List Op)
  | fetchStorage
deriving DecidableEq, Repr

/-- The queued "my presence" update of the outbound buffer: a full keyframe or
a partial patch (`buffer.me.type`). -/
structure BufferMe where
  full : Bool
  data : PresencePatch
deriving DecidableEq, Repr

/-- The outbound buffer (`context.buffer`). -/
structure Buffer where
  me : Option BufferMe
  messages : List ClientMsg
  storageOperations : List Op
deriving DecidableEq, Repr

/-- The WebSocket handle; only `readyState` is observed by the room core. -/
structure Socket where
  readyState : Nat
deriving DecidableEq, Repr

/-- `WebSocket.OPEN`. -/
def Socket.OPEN : Nat := 1

/-- Updates accumulated by an active batch (the storage-update map is keyed by
node id; the merged per-node payloads live in the CRDT layer, so only the key
set is tracked here). -/
structure BatchUpdates where
  storageUpdates : List String
  presence : Bool
deriving DecidableEq, Repr

/-- An active batch (`context.activeBatch`). -/
structure ActiveBatch where
  ops : List Op
  reverseOps : List HistoryOp
  updates : BatchUpdates
deriving DecidableEq, Repr

/-- The batch `makeStateMachine` opens at the start of `batch()`. -/
def emptyActiveBatch : ActiveBatch :=
  { ops := [], reverseOps := [], updates := { storageUpdates := [], presence := false } }

/-- The four-valued derived storage status. -/
inductive StorageStatus where
  | notLoaded | loading | synchronizing | synchronized
deriving DecidableEq, Repr

/-- The room machine's extended state (`MachineContext`), restricted to the
fields the storage / history / flush pipeline reads and writes.  `sent` and
`trace` are ghost logs of `effects.send` calls and of `applyOp` invocations;
`storageRequested` embeds `_getInitialStatePromise !== null`; `rootPresent`
embeds `context.root !== undefined`; `flushTimeout` holds the delay of the
currently armed flush timer. -/
structure Ctx where
  socket : Option Socket
  lastFlushTime : Nat
  throttleDelay : Nat
  buffer : Buffer
  flushTimeout : Option Nat
  connectionId : Int
  opClock : Nat
  me : Presence
  nodes : List String
  rootPresent : Bool
  storageRequested : Bool
  undoStack : List (List HistoryOp)
  redoStack : List (List HistoryOp)
  pausedHistory : Option (List HistoryOp)
  activeBatch : Option ActiveBatch
  unacknowledgedOps : List (String × Op)
  sent : List (List ClientMsg)
  trace : List (Op × OpSource)
deriving DecidableEq, Repr

/-- The initial context of `makeStateMachine` (socket closed, empty stacks,
initial presence queued as a full keyframe). -/
def initialCtx (initialPresence : PresencePatch) (throttleDelay : Nat) : Ctx :=
  { socket := none
    lastFlushTime := 0
    throttleDelay := throttleDelay
    buffer :=
      { me := some { full := true, data := initialPresence }
        messages := []
        storageOperations := [] }
    flushTimeout := none
    connectionId := 0
    opClock := 0
    me := []
    nodes := []
    rootPresent := false
    storageRequested := false
    undoStack := []
    redoStack := []
    pausedHistory := none
    activeBatch := none
    unacknowledgedOps := []
    sent := []
    trace := [] }

/-- Channel-openness test used by `tryFlushing`:
`context.socket !== null && context.socket.readyState === context.socket.OPEN`. -/
def socketIsOpen (ctx : Ctx) : Bool :=
  match ctx.socket with
  | none => false
  | some s => s.readyState == Socket.OPEN

/-- First stage of `tryFlushing`: take the buffered storage ops and insert
each into the unacknowledged-op ledger keyed by its opId. -/
def ledgerInsertAll (m : List (String × Op)) (ops : List Op) :
    List (String × Op) :=
  ops.foldl (fun acc op => mapSet acc (opIdOrEmpty op) op) m

/-- `tryFlushing`'s leading block: if there are buffered storage ops, record
every one of them in the ledger (`context.unacknowledgedOps.set(nn(op.opId), op)`). -/
def tryFlushingLedger (ctx : Ctx) : Ctx :=
  if ctx.buffer.storageOperations.isEmpty then ctx
  else
    { ctx with
      unacknowledgedOps :=
        ledgerInsertAll ctx.unacknowledgedOps ctx.buffer.storageOperations }

/-- `flushDataToMessages`: compose the outbound frame list from the buffer. -/
def flushDataToMessages (ctx : Ctx) : List ClientMsg :=
  let messages : List ClientMsg := []
  let messages :=
    match ctx.buffer.me with
    | some m =>
        messages ++
          [if m.full then ClientMsg.updatePresence (some (-1)) m.data
           else ClientMsg.updatePresence none m.data]
    | none => messages
  let messages := ctx.buffer.messages.foldl (fun acc event => acc ++ [event]) messages
  if ctx.buffer.storageOperations.isEmpty then messages
  else messages ++ [ClientMsg.updateStorage ctx.buffer.storageOperations]

/-- The reset outbound buffer installed after a successful flush. -/
def emptyBuffer : Buffer := { me := none, messages := [], storageOperations := [] }

/-- `tryFlushing`: record buffered storage ops in the ledger; when the channel
is not open, drop the outbound storage ops (they stay in the ledger for
resend); when the throttle window has elapsed strictly, send the composed
frames, reset the buffer and stamp `lastFlushTime`; otherwise (re)arm the
flush timer for the remaining delay. -/
def tryFlushing (ctx : Ctx) (now : Nat) : Ctx :=
  let ctx := tryFlushingLedger ctx
  if ¬ socketIsOpen ctx then
    { ctx with buffer := { ctx.buffer with storageOperations := [] } }
  else
    let elapsedTime := now - ctx.lastFlushTime
    if ctx.throttleDelay < elapsedTime then
      let messages := flushDataToMessages ctx
      if messages.isEmpty then ctx
      else
        { ctx with
          sent := ctx.sent ++ [messages]
          buffer := emptyBuffer
          lastFlushTime := now }
    else
      { ctx with flushTimeout := some (ctx.throttleDelay - (now - ctx.lastFlushTime)) }

/-- `dispatchOps`: append the ops to the outbound storage buffer and flush. -/
def dispatchOps (ctx : Ctx) (ops : List Op) (now : Nat) : Ctx :=
  tryFlushing
    { ctx with
      buffer :=
        { ctx.buffer with
          storageOperations := ctx.buffer.storageOperations ++ ops } }
    now

/-- `broadcastEvent`: with a null socket and no `shouldQueueEventIfNotReady`
flag the call returns immediately; otherwise the event is queued and a flush
is attempted. -/
def broadcastEvent (ctx : Ctx) (event : Int)
    (shouldQueueEventIfNotReady : Bool) (now : Nat) : Ctx :=
  if ctx.socket.isNone && !shouldQueueEventIfNotReady then ctx
  else
    tryFlushing
      { ctx with
        buffer :=
          { ctx.buffer with
            messages := ctx.buffer.messages ++ [ClientMsg.broadcastedEvent event] } }
      now

/-- `startLoadingStorage`: on the first call, queue a `FETCH_STORAGE` message,
flush, and create the initial-state promise (embedded as the
`storageRequested` flag). -/
def startLoadingStorage (ctx : Ctx) (now : Nat) : Ctx :=
  if ctx.storageRequested then ctx
  else
    tryFlushing
      { ctx with
        buffer :=
          { ctx.buffer with messages := ctx.buffer.messages ++ [ClientMsg.fetchStorage] }
        storageRequested := true }
      now

/-- `getStorageStatus`: `not-loaded` when storage was never requested,
`loading` when requested but the root is absent, then `synchronized` or
`synchronizing` according to the ledger. -/
def getStorageStatus (ctx : Ctx) : StorageStatus :=
  if ¬ ctx.storageRequested then StorageStatus.notLoaded
  else if ¬ ctx.rootPresent then StorageStatus.loading
  else if ctx.unacknowledgedOps.isEmpty then StorageStatus.synchronized
  else StorageStatus.synchronizing

/-- Result of applying one op at a node (`ApplyResult` of AbstractCrdt): the
node layer either rejects the op or reports the modified node together with
the reverse ops.  The per-node update payload stays in the node layer. -/
inductive ApplyResult where
  | notModified
  | modified (nodeId : String) (reverse : List Op)
deriving DecidableEq, Repr

/-- The CRDT node layer's `_apply` / `_attachChild` / `_setChildKey` surface,
which the room core only calls through `applyOp`.  Left abstract: theorems
hold for every node behaviour. -/
abbrev NodeApply := Op → OpSource → ApplyResult

/-- `pool.generateOpId`: produce `"<actor>:<opClock>"` and bump the clock. -/
def generateOpId (ctx : Ctx) : String × Ctx :=
  (toString ctx.connectionId ++ ":" ++ toString ctx.opClock,
   { ctx with opClock := ctx.opClock + 1 })

/-- The opId-assignment pass at the head of `applyOps`: ops applied after
undo/redo have no opIds yet, so fresh ones are generated for them. -/
def assignOpIds (ctx : Ctx) : List HistoryOp → List HistoryOp × Ctx
  | [] => ([], ctx)
  | HistoryOp.presence d :: rest =>
      let (tail, ctx1) := assignOpIds ctx rest
      (HistoryOp.presence d :: tail, ctx1)
  | HistoryOp.op o :: rest =>
      if o.opId.isNone then
        let (newId, ctx1) := generateOpId ctx
        let (tail, ctx2) := assignOpIds ctx1 rest
        (HistoryOp.op { o with opId := some newId } :: tail, ctx2)
      else
        let (tail, ctx1) := assignOpIds ctx rest
        (HistoryOp.op o :: tail, ctx1)

/-- `applyOp`: Ack ops are no-ops; the other ops are dispatched on their op
code — mutations and deletes look up the target node, `SET_PARENT_KEY` is
delegated through the node's (list) parent, the create ops look up the parent
node; an absent node or parent makes the op a no-op. -/
def applyOp (nodeApply : NodeApply) (ctx : Ctx) (op : Op) (source : OpSource) :
    ApplyResult :=
  if op.isAck then ApplyResult.notModified
  else
    match op.type with
    | OpCode.DELETE_OBJECT_KEY | OpCode.UPDATE_OBJECT | OpCode.DELETE_CRDT =>
        if ctx.nodes.contains op.id then nodeApply op source
        else ApplyResult.notModified
    | OpCode.SET_PARENT_KEY =>
        if ctx.nodes.contains op.id then nodeApply op source
        else ApplyResult.notModified
    | OpCode.CREATE_OBJECT | OpCode.CREATE_LIST | OpCode.CREATE_MAP
    | OpCode.CREATE_REGISTER =>
        match op.parentId with
        | none => ApplyResult.notModified
        | some parentId =>
            if ctx.nodes.contains parentId then nodeApply op source
            else ApplyResult.notModified
    | OpCode.ACK => ApplyResult.notModified

/-- Shallow-merge a presence patch into the current presence.  Modelled from
the spec: `me.patch(delta)` shallow-merges the keys present in delta
(entries whose value is `undefined` are skipped). -/
def patchMe (me : Presence) (patch : PresencePatch) : Presence :=
  patch.foldl
    (fun acc kv =>
      match kv.2 with
      | some v => mapSet acc kv.1 v
      | none => acc)
    me

/-- Insert a key into the key set of a storage-update map (`Map.set` keeps the
position of an existing key). -/
def keyInsert (keys : List String) (k : String) : List String :=
  if keys.contains k then keys else keys ++ [k]

/-- The loop state of `applyOps`: the machine context plus the `output`
accumulator (reverse ops, presence flag, storage-update keys) and the
per-call `createdNodeIds` set. -/
structure ApplyState where
  ctx : Ctx
  reverse : List HistoryOp
  presence : Bool
  storageUpdates : List String
  createdNodeIds : List String
deriving Repr

/-- One iteration of the `applyOps` loop.  A presence op captures the current
value of each affected key as its reverse, patches `me` and merges the data
into the queued presence update.  A storage op gets its source decided —
`UNDOREDO_RECONNECT` when local, otherwise `ACK` when its opId is in the
ledger (removing the entry) and `REMOTE` otherwise — and is applied; a
modification of a node not created in this same call contributes its
storage-update key and its reverse ops (prepended). -/
def applyOneOp (nodeApply : NodeApply) (isLocal : Bool) (st : ApplyState)
    (historyOp : HistoryOp) : ApplyState :=
  match historyOp with
  | HistoryOp.presence data =>
      let reverseData : PresencePatch :=
        data.map (fun kv => (kv.1, mapGet st.ctx.me kv.1))
      let me1 := patchMe st.ctx.me data
      let bufferMe1 :=
        match st.ctx.buffer.me with
        | none => some { full := false, data := data }
        | some b =>
            some { b with data := data.foldl (fun d kv => mapSet d kv.1 kv.2) b.data }
      { st with
        ctx :=
          { st.ctx with
            me := me1
            buffer := { st.ctx.buffer with me := bufferMe1 } }
        reverse := HistoryOp.presence reverseData :: st.reverse
        presence := true }
  | HistoryOp.op op =>
      let opId := opIdOrEmpty op
      let (source, ctx1) :=
        if isLocal then (OpSource.UNDOREDO_RECONNECT, st.ctx)
        else
          let deleted := mapContains st.ctx.unacknowledgedOps opId
          ((if deleted then OpSource.ACK else OpSource.REMOTE),
           { st.ctx with
             unacknowledgedOps := mapDelete st.ctx.unacknowledgedOps opId })
      let ctx1 := { ctx1 with trace := ctx1.trace ++ [(op, source)] }
      match applyOp nodeApply ctx1 op source with
      | ApplyResult.notModified => { st with ctx := ctx1 }
      | ApplyResult.modified nodeId reverse =>
          let st1 :=
            if st.createdNodeIds.contains nodeId then { st with ctx := ctx1 }
            else
              { st with
                ctx := ctx1
                storageUpdates := keyInsert st.storageUpdates nodeId
                reverse := reverse.map HistoryOp.op ++ st.reverse }
          if op.type == OpCode.CREATE_LIST || op.type == OpCode.CREATE_MAP
              || op.type == OpCode.CREATE_OBJECT then
            { st1 with createdNodeIds := st1.createdNodeIds ++ [op.id] }
          else st1

/-- The value returned by `applyOps`. -/
structure ApplyOpsResult where
  ops : List HistoryOp
  reverse : List HistoryOp
  presence : Bool
  storageUpdates : List String
deriving Repr

/-- `applyOps(rawOps, isLocal)`: assign missing opIds, then walk the ops in
order accumulating reverse ops (newest first), the presence flag and the
storage-update keys. -/
def applyOps (nodeApply : NodeApply) (ctx : Ctx) (rawOps : List HistoryOp)
    (isLocal : Bool) : ApplyOpsResult × Ctx :=
  let (ops, ctx1) := assignOpIds ctx rawOps
  let st0 : ApplyState :=
    { ctx := ctx1, reverse := [], presence := false, storageUpdates := []
      createdNodeIds := [] }
  let st := ops.foldl (applyOneOp nodeApply isLocal) st0
  ({ ops := ops, reverse := st.reverse, presence := st.presence
     storageUpdates := st.storageUpdates },
   st.ctx)

/-- Extract the storage ops of a history-op list (in `applyAndSendOps`,
`undo` and `redo` the list is typed `Op[]`; presence entries never occur in
those positions and are skipped by the undo/redo buffer loop). -/
def storageOpsOf (l : List HistoryOp) : List Op :=
  l.filterMap (fun h =>
    match h with
    | HistoryOp.op o => some o
    | HistoryOp.presence _ => none)

/-- `_addToRealUndoStack`: when the undo stack already holds 50 batches, drop
the oldest (index 0), then push the new batch. -/
def addToRealUndoStack (ctx : Ctx) (historyOps : List HistoryOp) : Ctx :=
  let ctx :=
    if 50 ≤ ctx.undoStack.length then { ctx with undoStack := ctx.undoStack.drop 1 }
    else ctx
  { ctx with undoStack := ctx.undoStack ++ [historyOps] }

/-- `addToUndoStack`: while history is paused, prepend the batch to the paused
buffer; otherwise push it onto the real undo stack. -/
def addToUndoStack (ctx : Ctx) (historyOps : List HistoryOp) : Ctx :=
  match ctx.pausedHistory with
  | some paused => { ctx with pausedHistory := some (historyOps ++ paused) }
  | none => addToRealUndoStack ctx historyOps

/-- `pool.dispatch`: with an active batch, accumulate ops, merged storage
updates and (prepended) reverse ops into it; otherwise push the reverse batch
onto the undo stack, clear the redo stack and dispatch the ops outbound. -/
def dispatch (ctx : Ctx) (ops : List Op) (reverse : List HistoryOp)
    (storageUpdates : List String) (now : Nat) : Ctx :=
  match ctx.activeBatch with
  | some activeBatch =>
      { ctx with
        activeBatch := some
          { activeBatch with
            ops := activeBatch.ops ++ ops
            updates :=
              { activeBatch.updates with
                storageUpdates :=
                  storageUpdates.foldl keyInsert activeBatch.updates.storageUpdates }
            reverseOps := reverse ++ activeBatch.reverseOps } }
  | none =>
      let ctx := addToUndoStack ctx reverse
      let ctx := { ctx with redoStack := [] }
      dispatchOps ctx ops now

/-- `updatePresence(patch, options)`: queue the defined entries of the patch,
capture the prior values of those keys, patch `me`; inside a batch the
reverse presence delta is prepended to the batch (when `addToHistory`),
otherwise the room flushes and pushes a single-entry reverse batch onto the
undo stack (when `addToHistory`). -/
def updatePresence (ctx : Ctx) (patch : PresencePatch) (addToHistory : Bool)
    (now : Nat) : Ctx :=
  let definedPatch := patch.filter (fun kv => kv.2.isSome)
  let oldValues : PresencePatch :=
    definedPatch.map (fun kv => (kv.1, mapGet ctx.me kv.1))
  let bufferMe0 : BufferMe :=
    match ctx.buffer.me with
    | none => { full := false, data := [] }
    | some b => b
  let bufferMe1 :=
    { bufferMe0 with
      data := definedPatch.foldl (fun d kv => mapSet d kv.1 kv.2) bufferMe0.data }
  let ctx :=
    { ctx with
      buffer := { ctx.buffer with me := some bufferMe1 }
      me := patchMe ctx.me patch }
  match ctx.activeBatch with
  | some activeBatch =>
      { ctx with
        activeBatch := some
          { activeBatch with
            reverseOps :=
              if addToHistory then
                HistoryOp.presence oldValues :: activeBatch.reverseOps
              else activeBatch.reverseOps
            updates := { activeBatch.updates with presence := true } } }
  | none =>
      let ctx := tryFlushing ctx now
      if addToHistory then addToUndoStack ctx [HistoryOp.presence oldValues]
      else ctx

/-- The `InvariantViolation` message of `undo()` during a batch. -/
def undoDuringBatchMsg : String := "undo is not allowed during a batch"

/-- The `InvariantViolation` message of `redo()` during a batch. -/
def redoDuringBatchMsg : String := "redo is not allowed during a batch"

/-- The popped branch of `undo()`: reset the paused-history buffer, re-apply
the popped batch locally, push the resulting reverse batch onto the redo
stack, queue the applied storage ops outbound, and flush. -/
def undoPopped (nodeApply : NodeApply) (ctx : Ctx) (historyOps : List HistoryOp)
    (now : Nat) : Ctx :=
  let ctx := { ctx with undoStack := ctx.undoStack.dropLast, pausedHistory := none }
  let (result, ctx) := applyOps nodeApply ctx historyOps true
  let ctx := { ctx with redoStack := ctx.redoStack ++ [result.reverse] }
  let ctx :=
    { ctx with
      buffer :=
        { ctx.buffer with
          storageOperations :=
            ctx.buffer.storageOperations ++ storageOpsOf result.ops } }
  tryFlushing ctx now

/-- `undo()`: forbidden during a batch; a no-op on an empty undo stack;
otherwise runs `undoPopped` on the popped top batch. -/
def undo (nodeApply : NodeApply) (ctx : Ctx) (now : Nat) : Except String Ctx :=
  if ctx.activeBatch.isSome then Except.error undoDuringBatchMsg
  else
    match ctx.undoStack.getLast? with
    | none => Except.ok ctx
    | some historyOps => Except.ok (undoPopped nodeApply ctx historyOps now)

/-- The popped branch of `redo()`: symmetric to `undoPopped`, pushing the
reverse batch directly onto the undo stack. -/
def redoPopped (nodeApply : NodeApply) (ctx : Ctx) (historyOps : List HistoryOp)
    (now : Nat) : Ctx :=
  let ctx := { ctx with redoStack := ctx.redoStack.dropLast, pausedHistory := none }
  let (result, ctx) := applyOps nodeApply ctx historyOps true
  let ctx := { ctx with undoStack := ctx.undoStack ++ [result.reverse] }
  let ctx :=
    { ctx with
      buffer :=
        { ctx.buffer with
          storageOperations :=
            ctx.buffer.storageOperations ++ storageOpsOf result.ops } }
  tryFlushing ctx now

/-- `redo()`: forbidden during a batch; a no-op on an empty redo stack;
otherwise runs `redoPopped` on the popped top batch. -/
def redo (nodeApply : NodeApply) (ctx : Ctx) (now : Nat) : Except String Ctx :=
  if ctx.activeBatch.isSome then Except.error redoDuringBatchMsg
  else
    match ctx.redoStack.getLast? with
    | none => Except.ok ctx
    | some historyOps => Except.ok (redoPopped nodeApply ctx historyOps now)

/-- `pause()`: install an empty paused-history buffer. -/
def pauseHistory (ctx : Ctx) : Ctx := { ctx with pausedHistory := some [] }

/-- `resume()`: clear the paused-history buffer and, when it was non-empty,
push its contents as one batch onto the real undo stack. -/
def resumeHistory (ctx : Ctx) : Ctx :=
  let historyOps := ctx.pausedHistory
  let ctx := { ctx with pausedHistory := none }
  match historyOps with
  | some l => if l.isEmpty then ctx else addToRealUndoStack ctx l
  | none => ctx

/-- `batch(fn)`: a nested call just runs the callback; an outermost call opens
an active batch, runs the callback, then closes the batch — pushing the
collected reverse ops (if any) onto the undo stack, clearing the redo stack
and dispatching the collected ops (when any ops were collected), and
flushing.  The callback is modelled as a context transformer. -/
def batch (ctx : Ctx) (callback : Ctx → Ctx) (now : Nat) : Ctx :=
  if ctx.activeBatch.isSome then callback ctx
  else
    let ctx2 := callback { ctx with activeBatch := some emptyActiveBatch }
    match ctx2.activeBatch with
    | none => ctx2
    | some currentBatch =>
        let ctx3 := { ctx2 with activeBatch := none }
        let ctx3 :=
          if currentBatch.reverseOps.isEmpty then ctx3
          else addToUndoStack ctx3 currentBatch.reverseOps
        let ctx3 :=
          if currentBatch.ops.isEmpty then ctx3
          else { ctx3 with redoStack := [] }
        let ctx3 :=
          if currentBatch.ops.isEmpty then ctx3
          else dispatchOps ctx3 currentBatch.ops now
        tryFlushing ctx3 now

/-- `applyAndSendOps(offlineOps)`: nothing happens for an empty snapshot;
otherwise the snapshot's ops are re-applied locally and sent as a single
`UPDATE_STORAGE` frame. -/
def applyAndSendOps (nodeApply : NodeApply) (offlineOps : List (String × Op))
    (ctx : Ctx) : Ctx :=
  if offlineOps.isEmpty then ctx
  else
    let ops := offlineOps.map (fun kv => HistoryOp.op kv.2)
    let (result, ctx1) := applyOps nodeApply ctx ops true
    { ctx1 with
      sent := ctx1.sent ++ [[ClientMsg.updateStorage (storageOpsOf result.ops)]] }

/-- The `INITIAL_STORAGE_STATE` branch of `onMessage`: snapshot the
unacknowledged-op ledger, rebuild or diff the root
(`createOrUpdateRootFromMessage`, abstracted as a context transformer since
the root construction and tree diffing live in the CRDT layer), then
`applyAndSendOps` on the snapshot. -/
def onInitialStorageState (nodeApply : NodeApply)
    (createOrUpdateRoot : Ctx → Ctx) (ctx : Ctx) : Ctx :=
  let unacknowledgedOps := ctx.unacknowledgedOps
  let ctx1 := createOrUpdateRoot ctx
  applyAndSendOps nodeApply unacknowledgedOps ctx1

/-- Host-level room commands outside of `batch` — the public calls whose
handling the claims quantify over.  Mutations reach the room core through
`pool.dispatch` carrying the ops, reverse ops and touched node ids produced
by the CRDT layer. -/
inductive RoomCmd where
  | mutate (ops : List Op) (reverse : List HistoryOp) (storageUpdates : List String)
  | setPresence (patch : PresencePatch) (addToHistory : Bool)
  | undoCmd
  | redoCmd
  | pauseCmd
  | resumeCmd
deriving Repr

/-- Run one command; a thrown `InvariantViolation` leaves the context as it
was and is reported alongside. -/
def runCmd (nodeApply : NodeApply) (ctx : Ctx) (cmd : RoomCmd) (now : Nat) :
    Ctx × Option String :=
  match cmd with
  | RoomCmd.mutate ops reverse storageUpdates =>
      (dispatch ctx ops reverse storageUpdates now, none)
  | RoomCmd.setPresence patch addToHistory =>
      (updatePresence ctx patch addToHistory now, none)
  | RoomCmd.undoCmd =>
      match undo nodeApply ctx now with
      | Except.ok c => (c, none)
      | Except.error e => (ctx, some e)
  | RoomCmd.redoCmd =>
      match redo nodeApply ctx now with
      | Except.ok c => (c, none)
      | Except.error e => (ctx, some e)
  | RoomCmd.pauseCmd => (pauseHistory ctx, none)
  | RoomCmd.resumeCmd => (resumeHistory ctx, none)

/-- Run a command sequence, stopping at the first thrown error. -/
def runCmds (nodeApply : NodeApply) (ctx : Ctx) (cmds : List RoomCmd)
    (now : Nat) : Ctx × Option String :=
  match cmds with
  | [] => (ctx, none)
  | cmd :: rest =>
      match runCmd nodeApply ctx cmd now with
      | (ctx1, none) => runCmds nodeApply ctx1 rest now
      | (ctx1, some e) => (ctx1, some e)

/-- A node layer that rejects every delegated op; used to instantiate
witnesses (the claims hold for every `NodeApply`). -/
def noNodeApply : NodeApply := fun _ _ => ApplyResult.notModified

/-! ### Association-list and fold lemmas -/

theorem mapGet_mapSet_self {α : Type} (m : List (String × α)) (k : String)
    (v : α) : mapGet (mapSet m k v) k = some v := by
  induction m with
  | nil => simp [mapSet, mapGet]
  | cons kv rest ih =>
      obtain ⟨k1, v1⟩ := kv
      by_cases h : k1 = k <;> simp [mapSet, mapGet, h, ih]

theorem mapGet_mapSet_ne {α : Type} (m : List (String × α)) (k1 k2 : String)
    (v : α) (h : k1 ≠ k2) : mapGet (mapSet m k1 v) k2 = mapGet m k2 := by
  induction m with
  | nil => simp [mapSet, mapGet, h]
  | cons kv rest ih =>
      obtain ⟨k3, v3⟩ := kv
      by_cases h3 : k3 = k1
      · subst h3
        simp [mapSet, mapGet, h]
      · simp [mapSet, mapGet, h3, ih]

theorem mapGet_mapDelete_self {α : Type} (m : List (String × α)) (k : String) :
    mapGet (mapDelete m k) k = none := by
  induction m with
  | nil => simp [mapDelete, mapGet]
  | cons kv rest ih =>
      obtain ⟨k1, v1⟩ := kv
      by_cases h : k1 = k <;> simp [mapDelete, mapGet, h, ih]

theorem ledgerInsertAll_get_notIn (m : List (String × Op)) (l : List Op)
    (k : String) (h : k ∉ l.map opIdOrEmpty) :
    mapGet (ledgerInsertAll m l) k = mapGet m k := by
  induction l generalizing m with
  | nil => rfl
  | cons a t ih =>
      simp only [List.map_cons, List.mem_cons, not_or] at h
      show mapGet (ledgerInsertAll (mapSet m (opIdOrEmpty a) a) t) k = mapGet m k
      rw [ih _ h.2, mapGet_mapSet_ne _ _ _ _ (fun he => h.1 he.symm)]

theorem ledgerInsertAll_get_mem (m : List (String × Op)) (l : List Op)
    (hnd : (l.map opIdOrEmpty).Nodup) (op : Op) (hmem : op ∈ l) :
    mapGet (ledgerInsertAll m l) (opIdOrEmpty op) = some op := by
  induction l generalizing m with
  | nil => cases hmem
  | cons a t ih =>
      simp only [List.map_cons, List.nodup_cons] at hnd
      rcases List.mem_cons.mp hmem with rfl | hmem2
      · show mapGet (ledgerInsertAll (mapSet m (opIdOrEmpty op) op) t) (opIdOrEmpty op)
            = some op
        rw [ledgerInsertAll_get_notIn _ _ _ hnd.1, mapGet_mapSet_self]
      · exact ih _ hnd.2 hmem2

theorem foldl_push_append {α : Type} (l init : List α) :
    l.foldl (fun acc e => acc ++ [e]) init = init ++ l := by
  induction l generalizing init with
  | nil => simp
  | cons a t ih => simp [List.foldl_cons, ih]

/-! ### Shape lemmas: which context fields each operation can touch -/

theorem applyOneOp_ctx_shape (nodeApply : NodeApply) (isLocal : Bool)
    (st : ApplyState) (h : HistoryOp) :
    ∃ me bufferMe unack tr,
      (applyOneOp nodeApply isLocal st h).ctx =
        { st.ctx with
          me := me
          unacknowledgedOps := unack
          trace := tr
          buffer := { st.ctx.buffer with me := bufferMe } } := by
  cases h with
  | presence data => exact ⟨_, _, _, _, rfl⟩
  | op o =>
      simp only [applyOneOp]
      repeat' split
      all_goals exact ⟨_, _, _, _, rfl⟩

theorem foldl_applyOneOp_ctx_shape (nodeApply : NodeApply) (isLocal : Bool)
    (l : List HistoryOp) :
    ∀ st : ApplyState,
      ∃ me bufferMe unack tr,
        (l.foldl (applyOneOp nodeApply isLocal) st).ctx =
          { st.ctx with
            me := me
            unacknowledgedOps := unack
            trace := tr
            buffer := { st.ctx.buffer with me := bufferMe } } := by
  induction l with
  | nil => exact fun st => ⟨_, _, _, _, rfl⟩
  | cons h t ih =>
      intro st
      obtain ⟨me1, b1, u1, t1, heq1⟩ := applyOneOp_ctx_shape nodeApply isLocal st h
      obtain ⟨me2, b2, u2, t2, heq2⟩ := ih (applyOneOp nodeApply isLocal st h)
      rw [List.foldl_cons, heq2, heq1]
      exact ⟨me2, b2, u2, t2, rfl⟩

theorem assignOpIds_ctx_shape (l : List HistoryOp) :
    ∀ ctx : Ctx, ∃ clk, (assignOpIds ctx l).2 = { ctx with opClock := clk } := by
  induction l with
  | nil => exact fun ctx => ⟨ctx.opClock, rfl⟩
  | cons h t ih =>
      intro ctx
      cases h with
      | presence d =>
          obtain ⟨clk, heq⟩ := ih ctx
          exact ⟨clk, by simp only [assignOpIds, heq]⟩
      | op o =>
          by_cases ho : o.opId.isNone
          · obtain ⟨clk, heq⟩ := ih { ctx with opClock := ctx.opClock + 1 }
            exact ⟨clk, by simp [assignOpIds, ho, generateOpId, heq]⟩
          · obtain ⟨clk, heq⟩ := ih ctx
            exact ⟨clk, by simp [assignOpIds, ho, heq]⟩

theorem applyOps_ctx_shape (nodeApply : NodeApply) (ctx : Ctx)
    (l : List HistoryOp) (isLocal : Bool) :
    ∃ clk me bufferMe unack tr,
      (applyOps nodeApply ctx l isLocal).2 =
        { ctx with
          opClock := clk
          me := me
          unacknowledgedOps := unack
          trace := tr
          buffer := { ctx.buffer with me := bufferMe } } := by
  obtain ⟨clk, heq⟩ := assignOpIds_ctx_shape l ctx
  obtain ⟨me, b, u, t, heq2⟩ :=
    foldl_applyOneOp_ctx_shape nodeApply isLocal (assignOpIds ctx l).1
      { ctx := (assignOpIds ctx l).2, reverse := [], presence := false
        storageUpdates := [], createdNodeIds := [] }
  refine ⟨clk, me, b, u, t, ?_⟩
  show (((assignOpIds ctx l).1.foldl (applyOneOp nodeApply isLocal)
      { ctx := (assignOpIds ctx l).2, reverse := [], presence := false
        storageUpdates := [], createdNodeIds := [] })).ctx = _
  rw [heq2, heq]

theorem tryFlushingLedger_eq (ctx : Ctx) :
    tryFlushingLedger ctx =
      { ctx with
        unacknowledgedOps :=
          ledgerInsertAll ctx.unacknowledgedOps ctx.buffer.storageOperations } := by
  unfold tryFlushingLedger
  split
  · next hemp =>
      rw [List.isEmpty_iff.mp hemp]
      rfl
  · rfl

theorem tryFlushing_shape (ctx : Ctx) (now : Nat) :
    ∃ buf unack sd lft fto,
      tryFlushing ctx now =
        { ctx with
          buffer := buf
          unacknowledgedOps := unack
          sent := sd
          lastFlushTime := lft
          flushTimeout := fto } := by
  unfold tryFlushing
  rw [tryFlushingLedger_eq]
  dsimp only
  repeat' split
  all_goals exact ⟨_, _, _, _, _, rfl⟩

theorem tryFlushing_unack (ctx : Ctx) (now : Nat) :
    (tryFlushing ctx now).unacknowledgedOps =
      ledgerInsertAll ctx.unacknowledgedOps ctx.buffer.storageOperations := by
  unfold tryFlushing
  rw [tryFlushingLedger_eq]
  dsimp only
  repeat' split
  all_goals rfl

theorem addToRealUndoStack_shape (ctx : Ctx) (l : List HistoryOp) :
    ∃ us, addToRealUndoStack ctx l = { ctx with undoStack := us } := by
  unfold addToRealUndoStack
  split <;> exact ⟨_, rfl⟩

theorem addToUndoStack_shape (ctx : Ctx) (l : List HistoryOp) :
    ∃ us ph, addToUndoStack ctx l = { ctx with undoStack := us, pausedHistory := ph } := by
  unfold addToUndoStack
  split
  · exact ⟨_, _, rfl⟩
  · obtain ⟨us, heq⟩ := addToRealUndoStack_shape ctx l
    exact ⟨us, ctx.pausedHistory, by rw [heq]⟩

/-! ### Projection corollaries of the shape lemmas -/

theorem applyOps_snd_pausedHistory (nodeApply : NodeApply) (ctx : Ctx)
    (l : List HistoryOp) (isLocal : Bool) :
    (applyOps nodeApply ctx l isLocal).2.pausedHistory = ctx.pausedHistory := by
  obtain ⟨c, m, b, u, t, h⟩ := applyOps_ctx_shape nodeApply ctx l isLocal
  rw [h]

theorem applyOps_snd_undoStack (nodeApply : NodeApply) (ctx : Ctx)
    (l : List HistoryOp) (isLocal : Bool) :
    (applyOps nodeApply ctx l isLocal).2.undoStack = ctx.undoStack := by
  obtain ⟨c, m, b, u, t, h⟩ := applyOps_ctx_shape nodeApply ctx l isLocal
  rw [h]

theorem applyOps_snd_redoStack (nodeApply : NodeApply) (ctx : Ctx)
    (l : List HistoryOp) (isLocal : Bool) :
    (applyOps nodeApply ctx l isLocal).2.redoStack = ctx.redoStack := by
  obtain ⟨c, m, b, u, t, h⟩ := applyOps_ctx_shape nodeApply ctx l isLocal
  rw [h]

theorem applyOps_snd_sent (nodeApply : NodeApply) (ctx : Ctx)
    (l : List HistoryOp) (isLocal : Bool) :
    (applyOps nodeApply ctx l isLocal).2.sent = ctx.sent := by
  obtain ⟨c, m, b, u, t, h⟩ := applyOps_ctx_shape nodeApply ctx l isLocal
  rw [h]

theorem applyOps_snd_activeBatch (nodeApply : NodeApply) (ctx : Ctx)
    (l : List HistoryOp) (isLocal : Bool) :
    (applyOps nodeApply ctx l isLocal).2.activeBatch = ctx.activeBatch := by
  obtain ⟨c, m, b, u, t, h⟩ := applyOps_ctx_shape nodeApply ctx l isLocal
  rw [h]

theorem tryFlushing_pausedHistory (ctx : Ctx) (now : Nat) :
    (tryFlushing ctx now).pausedHistory = ctx.pausedHistory := by
  obtain ⟨b, u, s, l, f, h⟩ := tryFlushing_shape ctx now
  rw [h]

theorem tryFlushing_undoStack (ctx : Ctx) (now : Nat) :
    (tryFlushing ctx now).undoStack = ctx.undoStack := by
  obtain ⟨b, u, s, l, f, h⟩ := tryFlushing_shape ctx now
  rw [h]

theorem tryFlushing_redoStack (ctx : Ctx) (now : Nat) :
    (tryFlushing ctx now).redoStack = ctx.redoStack := by
  obtain ⟨b, u, s, l, f, h⟩ := tryFlushing_shape ctx now
  rw [h]

theorem tryFlushing_activeBatch (ctx : Ctx) (now : Nat) :
    (tryFlushing ctx now).activeBatch = ctx.activeBatch := by
  obtain ⟨b, u, s, l, f, h⟩ := tryFlushing_shape ctx now
  rw [h]

theorem addToUndoStack_redoStack (ctx : Ctx) (l : List HistoryOp) :
    (addToUndoStack ctx l).redoStack = ctx.redoStack := by
  obtain ⟨us, ph, h⟩ := addToUndoStack_shape ctx l
  rw [h]

theorem addToUndoStack_buffer (ctx : Ctx) (l : List HistoryOp) :
    (addToUndoStack ctx l).buffer = ctx.buffer := by
  obtain ⟨us, ph, h⟩ := addToUndoStack_shape ctx l
  rw [h]

theorem addToUndoStack_unack (ctx : Ctx) (l : List HistoryOp) :
    (addToUndoStack ctx l).unacknowledgedOps = ctx.unacknowledgedOps := by
  obtain ⟨us, ph, h⟩ := addToUndoStack_shape ctx l
  rw [h]

theorem addToUndoStack_activeBatch (ctx : Ctx) (l : List HistoryOp) :
    (addToUndoStack ctx l).activeBatch = ctx.activeBatch := by
  obtain ⟨us, ph, h⟩ := addToUndoStack_shape ctx l
  rw [h]

/-! ### Targeted computation lemmas for applyOps -/

/-- A history op that already carries its opId (true of every op that has been
dispatched, in particular of every ledger entry). -/
def opIdAssigned : HistoryOp → Prop
  | HistoryOp.op o => o.opId.isSome = true
  | HistoryOp.presence _ => True

theorem assignOpIds_id (l : List HistoryOp) :
    ∀ ctx : Ctx, (∀ x ∈ l, opIdAssigned x) → assignOpIds ctx l = (l, ctx) := by
  induction l with
  | nil => intro ctx _; rfl
  | cons h t ih =>
      intro ctx hall
      have ht : ∀ x ∈ t, opIdAssigned x := fun x hx => hall x (List.mem_cons_of_mem _ hx)
      cases h with
      | presence d => simp [assignOpIds, ih ctx ht]
      | op o =>
          have ho : o.opId.isSome = true := hall _ (List.mem_cons_self _ _)
          have ho2 : ¬ o.opId.isNone = true := by
            cases hc : o.opId <;> simp_all [Option.isSome, Option.isNone]
          simp [assignOpIds, ho2, ih ctx ht]

/-- The trace entries produced by a local (`isLocal = true`) `applyOps` pass:
one `UNDOREDO_RECONNECT` record per storage op, in order. -/
def localTrace (l : List HistoryOp) : List (Op × OpSource) :=
  l.filterMap (fun h =>
    match h with
    | HistoryOp.op o => some (o, OpSource.UNDOREDO_RECONNECT)
    | HistoryOp.presence _ => none)

theorem applyOneOp_trace_local (nodeApply : NodeApply) (st : ApplyState) (o : Op) :
    (applyOneOp nodeApply true st (HistoryOp.op o)).ctx.trace
      = st.ctx.trace ++ [(o, OpSource.UNDOREDO_RECONNECT)] := by
  simp only [applyOneOp]
  repeat' split
  all_goals first | rfl | simp_all

theorem applyOneOp_trace_presence (nodeApply : NodeApply) (isLocal : Bool)
    (st : ApplyState) (d : PresencePatch) :
    (applyOneOp nodeApply isLocal st (HistoryOp.presence d)).ctx.trace
      = st.ctx.trace := rfl

theorem foldl_applyOneOp_trace_local (nodeApply : NodeApply)
    (l : List HistoryOp) :
    ∀ st : ApplyState,
      (l.foldl (applyOneOp nodeApply true) st).ctx.trace
        = st.ctx.trace ++ localTrace l := by
  induction l with
  | nil => intro st; simp [localTrace]
  | cons h t ih =>
      intro st
      cases h with
      | presence d =>
          rw [List.foldl_cons, ih]
          simp [localTrace, applyOneOp_trace_presence]
      | op o =>
          rw [List.foldl_cons, ih]
          simp [localTrace, applyOneOp_trace_local]

theorem localTrace_map_op (l : List (String × Op)) :
    localTrace (l.map (fun kv => HistoryOp.op kv.2))
      = l.map (fun kv => (kv.2, OpSource.UNDOREDO_RECONNECT)) := by
  induction l with
  | nil => rfl
  | cons a t ih => simp [localTrace] at ih ⊢; exact ih

theorem storageOpsOf_map_op (l : List (String × Op)) :
    storageOpsOf (l.map (fun kv => HistoryOp.op kv.2)) = l.map Prod.snd := by
  induction l with
  | nil => rfl
  | cons a t ih => simp [storageOpsOf] at ih ⊢; exact ih

theorem applyOneOp_op_unack_nonlocal (nodeApply : NodeApply) (st : ApplyState)
    (o : Op) :
    (applyOneOp nodeApply false st (HistoryOp.op o)).ctx.unacknowledgedOps
      = mapDelete st.ctx.unacknowledgedOps (opIdOrEmpty o) := by
  simp only [applyOneOp]
  repeat' split
  all_goals first | rfl | simp_all

theorem applyOneOp_op_trace_nonlocal (nodeApply : NodeApply) (st : ApplyState)
    (o : Op) :
    (applyOneOp nodeApply false st (HistoryOp.op o)).ctx.trace
      = st.ctx.trace
        ++ [(o, if mapContains st.ctx.unacknowledgedOps (opIdOrEmpty o)
                then OpSource.ACK else OpSource.REMOTE)] := by
  simp only [applyOneOp]
  repeat' split
  all_goals first | rfl | simp_all

/-- `resume()` after anything that cleared the paused-history buffer is a
complete no-op. -/
theorem resumeHistory_of_none (ctx : Ctx) (h : ctx.pausedHistory = none) :
    resumeHistory ctx = ctx := by
  unfold resumeHistory
  dsimp only
  rw [h]
  dsimp only
  rw [← h]

/-! ### Concrete contexts used by counterexamples and witnesses -/

/-- A context whose socket exists but is still CONNECTING (readyState 0): the
channel is not open, yet `context.socket !== null`. -/
def connectingCtx : Ctx :=
  { initialCtx [] 100 with
    socket := some { readyState := 0 }
    buffer := emptyBuffer }

/-- A context with no socket at all. -/
def closedSocketCtx : Ctx :=
  { initialCtx [] 100 with buffer := emptyBuffer }

/-- An open-channel context with the initial full-presence update still
buffered, `lastFlushTime = 0` and `throttleDelay = 100`. -/
def openFullBufferCtx : Ctx :=
  { initialCtx [("x", some 1)] 100 with socket := some { readyState := 1 } }

/-- An open-channel context with a completely empty outbound buffer. -/
def openEmptyBufferCtx : Ctx :=
  { initialCtx [] 100 with
    socket := some { readyState := 1 }
    buffer := emptyBuffer }

/-- A context with an active (empty) batch. -/
def activeBatchCtx : Ctx :=
  { initialCtx [] 100 with activeBatch := some emptyActiveBatch }

/-! ### Claim theorems -/

/-- Claim C6, counterexample: the claim says that with the channel not open
and no `shouldQueueEventIfNotReady`, `broadcastEvent` leaves the outbound
message buffer unchanged.  With a socket that exists but is still CONNECTING
(`readyState 0`, so the channel is not open) the guard
`context.socket === null` does not fire and the event is queued. -/
theorem claim_C6_counterexample :
    socketIsOpen connectingCtx = false
    ∧ connectingCtx.buffer.messages = []
    ∧ (broadcastEvent connectingCtx 7 false 0).buffer.messages
        = [ClientMsg.broadcastedEvent 7] := by decide

/-- Claim C6, amended: for every event value, calling `broadcastEvent` while
NO socket exists (`context.socket === null`) and without
`shouldQueueEventIfNotReady` is a silent drop — the whole machine context,
in particular the outbound message buffer, is left unchanged, no frame is
sent, and no error is thrown. -/
theorem claim_C6 (ctx : Ctx) (event : Int) (now : Nat)
    (hnull : ctx.socket = none) :
    broadcastEvent ctx event false now = ctx := by
  simp [broadcastEvent, hnull]

/-- Witness for C6 at a concrete closed-socket context. -/
theorem claim_C6_witness :
    broadcastEvent closedSocketCtx 42 false 5 = closedSocketCtx :=
  claim_C6 closedSocketCtx 42 5 rfl

/-- Claim C7: the outbound flush frame list is ordered — one UPDATE_PRESENCE
message iff `buffer.me` is non-null, carrying `targetActor = -1` exactly when
the queued update is full (and no targetActor when partial); then every queued
broadcast/client message in insertion order; then one UPDATE_STORAGE message
with all buffered storage ops iff that list is non-empty. -/
theorem claim_C7 (ctx : Ctx) :
    flushDataToMessages ctx =
      (match ctx.buffer.me with
       | none => []
       | some m =>
           [ClientMsg.updatePresence (if m.full then some (-1) else none) m.data])
      ++ ctx.buffer.messages
      ++ (if ctx.buffer.storageOperations.isEmpty then []
          else [ClientMsg.updateStorage ctx.buffer.storageOperations]) := by
  unfold flushDataToMessages
  cases hme : ctx.buffer.me with
  | none =>
      cases hso : ctx.buffer.storageOperations.isEmpty <;>
        simp [foldl_push_append, hso]
  | some m =>
      cases hfull : m.full <;>
        cases hso : ctx.buffer.storageOperations.isEmpty <;>
          simp [foldl_push_append, hso, hfull]

/-- Claim C8: calling `undo()` or `redo()` while a batch is active throws the
`InvariantViolation` synchronously; the error is raised before any stack is
popped or any state is touched, so the stacks and the replica are unchanged
(the `Except.error` result carries no state change). -/
theorem claim_C8 :
    (∀ (nodeApply : NodeApply) (ctx : Ctx) (now : Nat),
        ctx.activeBatch.isSome = true →
        undo nodeApply ctx now = Except.error undoDuringBatchMsg)
    ∧ (∀ (nodeApply : NodeApply) (ctx : Ctx) (now : Nat),
        ctx.activeBatch.isSome = true →
        redo nodeApply ctx now = Except.error redoDuringBatchMsg) := by
  constructor
  · intro nodeApply ctx now h
    simp [undo, h]
  · intro nodeApply ctx now h
    simp [redo, h]

/-- Witness for C8 at a concrete context with an active batch. -/
theorem claim_C8_witness :
    undo noNodeApply activeBatchCtx 0 = Except.error undoDuringBatchMsg
    ∧ redo noNodeApply activeBatchCtx 0 = Except.error redoDuringBatchMsg :=
  ⟨claim_C8.1 noNodeApply activeBatchCtx 0 rfl,
   claim_C8.2 noNodeApply activeBatchCtx 0 rfl⟩

/-- Claim C9: `getStorageStatus()` returns `not-loaded` iff storage was never
requested; `loading` iff requested with the root absent; with the root
present, `synchronizing` iff the unacknowledged-op ledger is non-empty and
`synchronized` iff it is empty. -/
theorem claim_C9 (ctx : Ctx) :
    (getStorageStatus ctx = StorageStatus.notLoaded ↔ ctx.storageRequested = false)
    ∧ (getStorageStatus ctx = StorageStatus.loading ↔
        ctx.storageRequested = true ∧ ctx.rootPresent = false)
    ∧ (getStorageStatus ctx = StorageStatus.synchronizing ↔
        ctx.storageRequested = true ∧ ctx.rootPresent = true
          ∧ ctx.unacknowledgedOps ≠ [])
    ∧ (getStorageStatus ctx = StorageStatus.synchronized ↔
        ctx.storageRequested = true ∧ ctx.rootPresent = true
          ∧ ctx.unacknowledgedOps = []) := by
  unfold getStorageStatus
  cases hr : ctx.storageRequested <;> cases hp : ctx.rootPresent <;>
    cases hu : ctx.unacknowledgedOps <;> simp_all

/-! ### Helpers about the popped branches of undo/redo -/

theorem undo_pop_eq (nodeApply : NodeApply) (ctx : Ctx) (now : Nat)
    (top : List HistoryOp) (hbatch : ctx.activeBatch = none)
    (htop : ctx.undoStack.getLast? = some top) :
    undo nodeApply ctx now = Except.ok (undoPopped nodeApply ctx top now) := by
  unfold undo
  rw [hbatch, htop]
  rfl

theorem redo_pop_eq (nodeApply : NodeApply) (ctx : Ctx) (now : Nat)
    (top : List HistoryOp) (hbatch : ctx.activeBatch = none)
    (htop : ctx.redoStack.getLast? = some top) :
    redo nodeApply ctx now = Except.ok (redoPopped nodeApply ctx top now) := by
  unfold redo
  rw [hbatch, htop]
  rfl

theorem undoPopped_pausedHistory (nodeApply : NodeApply) (ctx : Ctx)
    (top : List HistoryOp) (now : Nat) :
    (undoPopped nodeApply ctx top now).pausedHistory = none := by
  unfold undoPopped
  dsimp only
  rw [tryFlushing_pausedHistory]
  dsimp only
  rw [applyOps_snd_pausedHistory]

theorem redoPopped_pausedHistory (nodeApply : NodeApply) (ctx : Ctx)
    (top : List HistoryOp) (now : Nat) :
    (redoPopped nodeApply ctx top now).pausedHistory = none := by
  unfold redoPopped
  dsimp only
  rw [tryFlushing_pausedHistory]
  dsimp only
  rw [applyOps_snd_pausedHistory]

theorem undoPopped_redoStack (nodeApply : NodeApply) (ctx : Ctx)
    (top : List HistoryOp) (now : Nat) :
    (undoPopped nodeApply ctx top now).redoStack
      = ctx.redoStack
        ++ [(applyOps nodeApply
              { ctx with undoStack := ctx.undoStack.dropLast, pausedHistory := none }
              top true).1.reverse] := by
  unfold undoPopped
  dsimp only
  rw [tryFlushing_redoStack]
  dsimp only
  rw [applyOps_snd_redoStack]

theorem redoPopped_undoStack (nodeApply : NodeApply) (ctx : Ctx)
    (top : List HistoryOp) (now : Nat) :
    (redoPopped nodeApply ctx top now).undoStack
      = ctx.undoStack
        ++ [(applyOps nodeApply
              { ctx with redoStack := ctx.redoStack.dropLast, pausedHistory := none }
              top true).1.reverse] := by
  unfold redoPopped
  dsimp only
  rw [tryFlushing_undoStack]
  dsimp only
  rw [applyOps_snd_undoStack]

/-- Claim C10: whenever `undo()` or `redo()` pops a non-empty stack outside a
batch, it resets the paused-history buffer to null — any reverse ops
accumulated since the last `pause()` are discarded — and a later `resume()`
is a complete no-op, in particular pushing nothing onto the undo stack. -/
theorem claim_C10 :
    (∀ (nodeApply : NodeApply) (ctx : Ctx) (now : Nat) (top : List HistoryOp),
        ctx.activeBatch = none → ctx.undoStack.getLast? = some top →
        ∃ ctx2, undo nodeApply ctx now = Except.ok ctx2
          ∧ ctx2.pausedHistory = none
          ∧ resumeHistory ctx2 = ctx2
          ∧ (resumeHistory ctx2).undoStack = ctx2.undoStack)
    ∧ (∀ (nodeApply : NodeApply) (ctx : Ctx) (now : Nat) (top : List HistoryOp),
        ctx.activeBatch = none → ctx.redoStack.getLast? = some top →
        ∃ ctx2, redo nodeApply ctx now = Except.ok ctx2
          ∧ ctx2.pausedHistory = none
          ∧ resumeHistory ctx2 = ctx2
          ∧ (resumeHistory ctx2).undoStack = ctx2.undoStack) := by
  constructor
  · intro nodeApply ctx now top hbatch htop
    refine ⟨undoPopped nodeApply ctx top now,
      undo_pop_eq nodeApply ctx now top hbatch htop,
      undoPopped_pausedHistory nodeApply ctx top now, ?_, ?_⟩
    · exact resumeHistory_of_none _ (undoPopped_pausedHistory nodeApply ctx top now)
    · rw [resumeHistory_of_none _ (undoPopped_pausedHistory nodeApply ctx top now)]
  · intro nodeApply ctx now top hbatch htop
    refine ⟨redoPopped nodeApply ctx top now,
      redo_pop_eq nodeApply ctx now top hbatch htop,
      redoPopped_pausedHistory nodeApply ctx top now, ?_, ?_⟩
    · exact resumeHistory_of_none _ (redoPopped_pausedHistory nodeApply ctx top now)
    · rw [resumeHistory_of_none _ (redoPopped_pausedHistory nodeApply ctx top now)]

/-- A one-entry presence history batch, for witnesses. -/
def presenceBatchW : List HistoryOp := [HistoryOp.presence [("k", some 1)]]

/-- A context with one undoable batch and a non-empty paused-history buffer. -/
def undoStackCtxW : Ctx :=
  { initialCtx [] 100 with
    undoStack := [presenceBatchW]
    pausedHistory := some presenceBatchW }

/-- A context with one redoable batch and a non-empty paused-history buffer. -/
def redoStackCtxW : Ctx :=
  { initialCtx [] 100 with
    redoStack := [presenceBatchW]
    pausedHistory := some presenceBatchW }

/-- Witness for C10 at concrete one-batch contexts. -/
theorem claim_C10_witness :
    (∃ ctx2, undo noNodeApply undoStackCtxW 0 = Except.ok ctx2
      ∧ ctx2.pausedHistory = none
      ∧ resumeHistory ctx2 = ctx2
      ∧ (resumeHistory ctx2).undoStack = ctx2.undoStack)
    ∧ (∃ ctx2, redo noNodeApply redoStackCtxW 0 = Except.ok ctx2
      ∧ ctx2.pausedHistory = none
      ∧ resumeHistory ctx2 = ctx2
      ∧ (resumeHistory ctx2).undoStack = ctx2.undoStack) :=
  ⟨claim_C10.1 noNodeApply undoStackCtxW 0 presenceBatchW rfl (by decide),
   claim_C10.2 noNodeApply redoStackCtxW 0 presenceBatchW rfl (by decide)⟩

/-- Claim C4: every local storage op performed outside undo/redo — a
`pool.dispatch` with no active batch, or a `batch()` whose collected ops list
is non-empty — empties the redo stack; `undo()` and `redo()` never clear the
opposite stack: undo appends the reverse batch to the redo stack, and redo
appends the reverse batch to the undo stack. -/
theorem claim_C4 :
    (∀ (ctx : Ctx) (ops : List Op) (reverse : List HistoryOp)
        (storageUpdates : List String) (now : Nat),
        ctx.activeBatch = none →
        (dispatch ctx ops reverse storageUpdates now).redoStack = [])
    ∧ (∀ (ctx : Ctx) (callback : Ctx → Ctx) (now : Nat)
        (currentBatch : ActiveBatch),
        ctx.activeBatch = none →
        (callback { ctx with activeBatch := some emptyActiveBatch }).activeBatch
          = some currentBatch →
        currentBatch.ops ≠ [] →
        (batch ctx callback now).redoStack = [])
    ∧ (∀ (nodeApply : NodeApply) (ctx : Ctx) (now : Nat) (top : List HistoryOp),
        ctx.activeBatch = none → ctx.undoStack.getLast? = some top →
        ∃ ctx2 rev, undo nodeApply ctx now = Except.ok ctx2
          ∧ ctx2.redoStack = ctx.redoStack ++ [rev])
    ∧ (∀ (nodeApply : NodeApply) (ctx : Ctx) (now : Nat) (top : List HistoryOp),
        ctx.activeBatch = none → ctx.redoStack.getLast? = some top →
        ∃ ctx2 rev, redo nodeApply ctx now = Except.ok ctx2
          ∧ ctx2.undoStack = ctx.undoStack ++ [rev]) := by
  refine ⟨?_, ?_, ?_, ?_⟩
  · intro ctx ops reverse storageUpdates now hbatch
    unfold dispatch
    rw [hbatch]
    dsimp only
    unfold dispatchOps
    rw [tryFlushing_redoStack]
  · intro ctx callback now currentBatch hbatch hcb hops
    have hopsE : currentBatch.ops.isEmpty = false := by
      cases hmm : currentBatch.ops.isEmpty
      · rfl
      · exact absurd (List.isEmpty_iff.mp hmm) hops
    unfold batch
    rw [hbatch]
    dsimp only
    rw [hcb]
    dsimp only
    rw [hopsE]
    simp [dispatchOps, tryFlushing_redoStack]
  · intro nodeApply ctx now top hbatch htop
    exact ⟨undoPopped nodeApply ctx top now, _,
      undo_pop_eq nodeApply ctx now top hbatch htop,
      undoPopped_redoStack nodeApply ctx top now⟩
  · intro nodeApply ctx now top hbatch htop
    exact ⟨redoPopped nodeApply ctx top now, _,
      redo_pop_eq nodeApply ctx now top hbatch htop,
      redoPopped_undoStack nodeApply ctx top now⟩

/-- A concrete storage op carrying an opId. -/
def opW : Op :=
  { type := OpCode.UPDATE_OBJECT
    opId := some "1:0"
    id := "0:0"
    parentId := none
    parentKey := none }

/-- A batch-close record whose collected ops list is non-empty. -/
def currentBatchW : ActiveBatch :=
  { ops := [opW]
    reverseOps := [HistoryOp.op opW]
    updates := { storageUpdates := ["0:0"], presence := false } }

/-- A batch callback that ends with `currentBatchW` collected. -/
def batchCallbackW : Ctx → Ctx :=
  fun c => { c with activeBatch := some currentBatchW }

/-- Witness for C4 at concrete contexts: a dispatch outside a batch and a
non-empty batch clear the redo stack; a popped undo/redo appends to the
opposite stack. -/
theorem claim_C4_witness :
    (dispatch (initialCtx [] 100) [opW] [HistoryOp.op opW] ["0:0"] 0).redoStack = []
    ∧ (batch (initialCtx [] 100) batchCallbackW 0).redoStack = []
    ∧ (∃ ctx2 rev, undo noNodeApply undoStackCtxW 0 = Except.ok ctx2
        ∧ ctx2.redoStack = undoStackCtxW.redoStack ++ [rev])
    ∧ (∃ ctx2 rev, redo noNodeApply redoStackCtxW 0 = Except.ok ctx2
        ∧ ctx2.undoStack = redoStackCtxW.undoStack ++ [rev]) :=
  ⟨claim_C4.1 (initialCtx [] 100) [opW] [HistoryOp.op opW] ["0:0"] 0 rfl,
   claim_C4.2.1 (initialCtx [] 100) batchCallbackW 0 currentBatchW rfl rfl (by decide),
   claim_C4.2.2.1 noNodeApply undoStackCtxW 0 presenceBatchW rfl (by decide),
   claim_C4.2.2.2 noNodeApply redoStackCtxW 0 presenceBatchW rfl (by decide)⟩

/-- Claim C5, counterexample: the claim says a flush happens whenever
`now - lastFlushTime >= throttleDelay`, sending the buffered messages and
stamping `lastFlushTime = now`.  The code tests `elapsedTime > throttleDelay`
strictly: at `now - lastFlushTime = throttleDelay` (here 100 = 100), with the
channel open and a non-empty buffer, nothing is sent and a zero-delay timer
is armed instead; and when the window has elapsed strictly but the buffer is
empty (second conjunct), nothing is sent and `lastFlushTime` keeps its old
value instead of being set to `now`. -/
theorem claim_C5_counterexample :
    (100 - openFullBufferCtx.lastFlushTime ≥ openFullBufferCtx.throttleDelay
      ∧ socketIsOpen openFullBufferCtx = true
      ∧ flushDataToMessages openFullBufferCtx ≠ []
      ∧ (tryFlushing openFullBufferCtx 100).sent = []
      ∧ (tryFlushing openFullBufferCtx 100).buffer = openFullBufferCtx.buffer
      ∧ (tryFlushing openFullBufferCtx 100).flushTimeout = some 0)
    ∧ (101 - openEmptyBufferCtx.lastFlushTime ≥ openEmptyBufferCtx.throttleDelay
      ∧ socketIsOpen openEmptyBufferCtx = true
      ∧ (tryFlushing openEmptyBufferCtx 101).sent = []
      ∧ (tryFlushing openEmptyBufferCtx 101).lastFlushTime = 0) := by decide

/-- Claim C5, amended: if `tryFlushing` runs while the channel is open and
`now - lastFlushTime` is STRICTLY greater than `throttleDelay`, the buffered
messages are composed and — when at least one message is buffered — sent
immediately, with the buffer reset to empty and `lastFlushTime` set to `now`
(when the composed list is empty nothing is sent and `lastFlushTime` and the
buffer are unchanged); if `now - lastFlushTime <= throttleDelay`, no frame is
sent and a one-shot timer is scheduled for the remaining delay, replacing any
existing flush timer. -/
theorem claim_C5 (ctx : Ctx) (now : Nat) (hopen : socketIsOpen ctx = true) :
    (ctx.throttleDelay < now - ctx.lastFlushTime →
       (flushDataToMessages ctx ≠ [] →
          (tryFlushing ctx now).sent = ctx.sent ++ [flushDataToMessages ctx]
          ∧ (tryFlushing ctx now).buffer = emptyBuffer
          ∧ (tryFlushing ctx now).lastFlushTime = now)
       ∧ (flushDataToMessages ctx = [] →
          (tryFlushing ctx now).sent = ctx.sent
          ∧ (tryFlushing ctx now).lastFlushTime = ctx.lastFlushTime
          ∧ (tryFlushing ctx now).buffer = ctx.buffer))
    ∧ (now - ctx.lastFlushTime ≤ ctx.throttleDelay →
       (tryFlushing ctx now).sent = ctx.sent
       ∧ (tryFlushing ctx now).flushTimeout
           = some (ctx.throttleDelay - (now - ctx.lastFlushTime))) := by
  have hopen2 : socketIsOpen
      { ctx with
        unacknowledgedOps :=
          ledgerInsertAll ctx.unacknowledgedOps ctx.buffer.storageOperations }
      = true := hopen
  have hfl : flushDataToMessages
      { ctx with
        unacknowledgedOps :=
          ledgerInsertAll ctx.unacknowledgedOps ctx.buffer.storageOperations }
      = flushDataToMessages ctx := rfl
  constructor
  · intro hlt
    constructor
    · intro hne
      have hneB : (flushDataToMessages ctx).isEmpty = false := by
        cases hmm : (flushDataToMessages ctx).isEmpty
        · rfl
        · exact absurd (List.isEmpty_iff.mp hmm) hne
      unfold tryFlushing
      rw [tryFlushingLedger_eq]
      dsimp only
      rw [hopen2, hfl, hneB]
      simp [hlt]
    · intro hemp
      have hempB : (flushDataToMessages ctx).isEmpty = true := by
        rw [List.isEmpty_iff]; exact hemp
      unfold tryFlushing
      rw [tryFlushingLedger_eq]
      dsimp only
      rw [hopen2, hfl, hempB]
      simp [hlt]
  · intro hle
    have hnlt : ¬ ctx.throttleDelay < now - ctx.lastFlushTime := not_lt.mpr hle
    unfold tryFlushing
    rw [tryFlushingLedger_eq]
    dsimp only
    rw [hopen2]
    simp [hnlt]

/-- Witness for C5 at a concrete open context past the throttle window. -/
theorem claim_C5_witness :
    (tryFlushing openFullBufferCtx 101).sent
      = openFullBufferCtx.sent ++ [flushDataToMessages openFullBufferCtx]
    ∧ (tryFlushing openFullBufferCtx 101).lastFlushTime = 101
    ∧ (tryFlushing openEmptyBufferCtx 50).flushTimeout = some 50 := by
  refine ⟨?_, ?_, ?_⟩
  · exact (((claim_C5 openFullBufferCtx 101 rfl).1 (by decide)).1 (by decide)).1
  · exact (((claim_C5 openFullBufferCtx 101 rfl).1 (by decide)).1 (by decide)).2.2
  · exact ((claim_C5 openEmptyBufferCtx 50 rfl).2 (by decide)).2

/-! ### Claim C1: ledger bookkeeping around dispatch and ack -/

theorem dispatch_unack (ctx : Ctx) (ops : List Op) (reverse : List HistoryOp)
    (storageUpdates : List String) (now : Nat) (hbatch : ctx.activeBatch = none) :
    (dispatch ctx ops reverse storageUpdates now).unacknowledgedOps
      = ledgerInsertAll ctx.unacknowledgedOps
          (ctx.buffer.storageOperations ++ ops) := by
  unfold dispatch
  rw [hbatch]
  dsimp only
  unfold dispatchOps
  rw [tryFlushing_unack]
  dsimp only
  rw [addToUndoStack_unack, addToUndoStack_buffer]

/-- Claim C1: for every local storage op, immediately after dispatch (the
`tryFlushing` run on the buffered ops) the op's opId maps to that op in the
unacknowledged-op ledger — with no constraint on the socket, so also when the
channel is not open; and when `applyOps` later processes a non-local op whose
opId is in the ledger, it removes that entry and applies the op with source
`ACK`, so after the matching ack frame the opId is absent from the ledger. -/
theorem claim_C1 :
    (∀ (ctx : Ctx) (ops : List Op) (reverse : List HistoryOp)
        (storageUpdates : List String) (now : Nat),
        ctx.activeBatch = none →
        (∀ op ∈ ops, op.opId.isSome = true) →
        ((ctx.buffer.storageOperations ++ ops).map opIdOrEmpty).Nodup →
        ∀ op ∈ ops,
          mapGet (dispatch ctx ops reverse storageUpdates now).unacknowledgedOps
              (opIdOrEmpty op)
            = some op)
    ∧ (∀ (nodeApply : NodeApply) (ctx : Ctx) (op : Op) (i : String),
        op.opId = some i →
        mapContains ctx.unacknowledgedOps i = true →
        mapContains
            (applyOps nodeApply ctx [HistoryOp.op op] false).2.unacknowledgedOps
            i = false
        ∧ (applyOps nodeApply ctx [HistoryOp.op op] false).2.trace
            = ctx.trace ++ [(op, OpSource.ACK)]) := by
  constructor
  · intro ctx ops reverse storageUpdates now hbatch _hsome hnd op hop
    rw [dispatch_unack ctx ops reverse storageUpdates now hbatch]
    exact ledgerInsertAll_get_mem _ _ hnd op (List.mem_append_right _ hop)
  · intro nodeApply ctx op i hid hcont
    have hassign : assignOpIds ctx [HistoryOp.op op] = ([HistoryOp.op op], ctx) := by
      apply assignOpIds_id
      intro x hx
      rcases List.mem_singleton.mp hx with rfl
      simp [opIdAssigned, hid]
    have hkey : opIdOrEmpty op = i := by simp [opIdOrEmpty, hid]
    constructor
    · unfold applyOps
      rw [hassign]
      dsimp only
      rw [List.foldl_cons, List.foldl_nil, applyOneOp_op_unack_nonlocal]
      rw [hkey]
      simp [mapContains, mapGet_mapDelete_self]
    · unfold applyOps
      rw [hassign]
      dsimp only
      rw [List.foldl_cons, List.foldl_nil, applyOneOp_op_trace_nonlocal]
      rw [hkey]
      simp [hcont]

/-- A context whose ledger holds exactly the dispatched `opW`. -/
def ledgerCtxW : Ctx :=
  { initialCtx [] 100 with unacknowledgedOps := [("1:0", opW)] }

/-- Witness for C1: a concrete dispatch records the op in the ledger, and a
concrete non-local reapply acks and removes it. -/
theorem claim_C1_witness :
    mapGet (dispatch (initialCtx [] 100) [opW] [] [] 0).unacknowledgedOps
        (opIdOrEmpty opW) = some opW
    ∧ mapContains
        (applyOps noNodeApply ledgerCtxW [HistoryOp.op opW] false).2.unacknowledgedOps
        "1:0" = false
    ∧ (applyOps noNodeApply ledgerCtxW [HistoryOp.op opW] false).2.trace
        = ledgerCtxW.trace ++ [(opW, OpSource.ACK)] := by
  refine ⟨?_, ?_, ?_⟩
  · exact claim_C1.1 (initialCtx [] 100) [opW] [] [] 0 rfl (by decide) (by decide)
      opW (by decide)
  · exact (claim_C1.2 noNodeApply ledgerCtxW opW "1:0" rfl (by decide)).1
  · exact (claim_C1.2 noNodeApply ledgerCtxW opW "1:0" rfl (by decide)).2

/-! ### Claim C2: resend of the ledger after INITIAL_STORAGE_STATE -/

theorem applyOps_fst_ops (nodeApply : NodeApply) (ctx : Ctx)
    (l : List HistoryOp) (isLocal : Bool) :
    (applyOps nodeApply ctx l isLocal).1.ops = (assignOpIds ctx l).1 := rfl

theorem applyOps_snd_trace_local (nodeApply : NodeApply) (ctx : Ctx)
    (l : List HistoryOp) (h : assignOpIds ctx l = (l, ctx)) :
    (applyOps nodeApply ctx l true).2.trace = ctx.trace ++ localTrace l := by
  unfold applyOps
  rw [h]
  dsimp only
  rw [foldl_applyOneOp_trace_local]

/-- Claim C2: when an INITIAL_STORAGE_STATE message is handled with a
non-empty unacknowledged-op ledger, the client snapshots the ledger, rebuilds
or diffs the root (`createOrUpdateRoot`, the abstracted
`createOrUpdateRootFromMessage`), then re-applies exactly the snapshotted ops
with the local source `UNDOREDO_RECONNECT` and appends exactly one
UPDATE_STORAGE frame carrying exactly those ops; with an empty ledger the
handler is exactly the root update and no such frame is emitted. -/
theorem claim_C2 (nodeApply : NodeApply) (createOrUpdateRoot : Ctx → Ctx)
    (ctx : Ctx)
    (hids : ∀ kv ∈ ctx.unacknowledgedOps, (kv.2).opId.isSome = true) :
    (ctx.unacknowledgedOps = [] →
       onInitialStorageState nodeApply createOrUpdateRoot ctx
         = createOrUpdateRoot ctx)
    ∧ (ctx.unacknowledgedOps ≠ [] →
       (onInitialStorageState nodeApply createOrUpdateRoot ctx).sent
         = (createOrUpdateRoot ctx).sent
           ++ [[ClientMsg.updateStorage (ctx.unacknowledgedOps.map Prod.snd)]]
       ∧ (onInitialStorageState nodeApply createOrUpdateRoot ctx).trace
         = (createOrUpdateRoot ctx).trace
           ++ ctx.unacknowledgedOps.map
               (fun kv => (kv.2, OpSource.UNDOREDO_RECONNECT))) := by
  constructor
  · intro hemp
    unfold onInitialStorageState applyAndSendOps
    dsimp only
    rw [hemp]
    simp
  · intro hne
    have hSE : ctx.unacknowledgedOps.isEmpty = false := by
      cases hmm : ctx.unacknowledgedOps.isEmpty
      · rfl
      · exact absurd (List.isEmpty_iff.mp hmm) hne
    have hassign : assignOpIds (createOrUpdateRoot ctx)
        (ctx.unacknowledgedOps.map (fun kv => HistoryOp.op kv.2))
        = (ctx.unacknowledgedOps.map (fun kv => HistoryOp.op kv.2),
           createOrUpdateRoot ctx) := by
      apply assignOpIds_id
      intro x hx
      rcases List.mem_map.mp hx with ⟨kv, hkv, rfl⟩
      simpa [opIdAssigned] using hids kv hkv
    constructor
    · unfold onInitialStorageState applyAndSendOps
      dsimp only
      rw [hSE]
      simp only [Bool.false_eq_true, if_false]
      rw [applyOps_snd_sent, applyOps_fst_ops, hassign]
      dsimp only
      rw [storageOpsOf_map_op]
    · unfold onInitialStorageState applyAndSendOps
      dsimp only
      rw [hSE]
      simp only [Bool.false_eq_true, if_false]
      rw [applyOps_snd_trace_local nodeApply (createOrUpdateRoot ctx) _ hassign,
        localTrace_map_op]

/-- Witness for C2: a concrete reconnect resend with a one-entry ledger and
the identity root update, plus the empty-ledger no-op. -/
theorem claim_C2_witness :
    (onInitialStorageState noNodeApply id ledgerCtxW).sent
      = (id ledgerCtxW).sent ++ [[ClientMsg.updateStorage [opW]]]
    ∧ onInitialStorageState noNodeApply id (initialCtx [] 100)
        = id (initialCtx [] 100) := by
  constructor
  · exact ((claim_C2 noNodeApply id ledgerCtxW (by decide)).2 (by decide)).1
  · exact (claim_C2 noNodeApply id (initialCtx [] 100) (by decide)).1 rfl

/-! ### Claim C3: the undo-stack depth bound -/

/-- The i-th forward op of the 100-mutation scenario. -/
def mkOp (i : Nat) : Op :=
  { type := OpCode.UPDATE_OBJECT
    opId := some ("1:" ++ toString i)
    id := "0:0"
    parentId := none
    parentKey := none }

/-- The i-th reverse op of the 100-mutation scenario. -/
def mkRevOp (i : Nat) : Op :=
  { type := OpCode.UPDATE_OBJECT
    opId := none
    id := "0:0"
    parentId := none
    parentKey := some (toString i) }

/-- The i-th single-op mutation, as handed to `pool.dispatch`. -/
def mkMutate (i : Nat) : RoomCmd :=
  RoomCmd.mutate [mkOp i] [HistoryOp.op (mkRevOp i)] ["0:0"]

/-- 100 consecutive single-op mutations outside any batch. -/
def mut100 : List RoomCmd := (List.range 100).map mkMutate

/-- A presence update with `addToHistory`. -/
def presenceSet (v : Int) : RoomCmd :=
  RoomCmd.setPresence [("p", some v)] true

/-- A command sequence that overflows the undo stack: 50 history-recorded
presence updates fill the stack to 50; one `undo` makes room and arms the
redo stack; a presence update (which records history but never clears the
redo stack) refills the stack to 50; the final `redo` then pushes directly,
without the depth check. -/
def overflowCmds : List RoomCmd :=
  List.replicate 50 (presenceSet 1)
    ++ [RoomCmd.undoCmd, presenceSet 2, RoomCmd.redoCmd]

set_option maxRecDepth 8000 in
/-- Claim C3, counterexample: the claim says every reachable state keeps the
undo stack at 50 batches or fewer.  Running `overflowCmds` from the initial
context throws nothing (second conjunct) and reaches a state whose undo stack
holds 51 batches: `redo()` pushes its reverse batch directly onto the undo
stack without the depth check of `_addToRealUndoStack`. -/
theorem claim_C3_counterexample :
    (runCmds noNodeApply (initialCtx [] 100) overflowCmds 0).2 = none
    ∧ (runCmds noNodeApply (initialCtx [] 100) overflowCmds 0).1.undoStack.length
        = 51 := by decide

set_option maxRecDepth 8000 in
/-- Claim C3, amended: pushing a new batch through the history push path
(`_addToRealUndoStack`) keeps the undo stack at 50 batches or fewer, removing
the oldest batch (index 0) when the stack is full, so 100 consecutive
single-op mutations leave exactly the 50 newest batches undoable; `redo()`,
however, pushes its reverse batch directly and can grow the stack past 50. -/
theorem claim_C3 :
    (∀ (ctx : Ctx) (historyOps : List HistoryOp),
        ctx.undoStack.length ≤ 50 →
        (addToRealUndoStack ctx historyOps).undoStack.length ≤ 50
        ∧ (ctx.undoStack.length = 50 →
            (addToRealUndoStack ctx historyOps).undoStack
              = ctx.undoStack.drop 1 ++ [historyOps]))
    ∧ (runCmds noNodeApply (initialCtx [] 100) mut100 0).1.undoStack
        = ((List.range 100).drop 50).map (fun i => [HistoryOp.op (mkRevOp i)]) := by
  constructor
  · intro ctx historyOps hle
    unfold addToRealUndoStack
    by_cases h50 : 50 ≤ ctx.undoStack.length
    · constructor
      · simp only [h50, if_true]
        simp [List.length_drop]
        omega
      · intro _
        simp [h50]
    · constructor
      · simp only [h50, if_false]
        simp
        omega
      · intro h
        exact absurd (le_of_eq h.symm) h50
  · decide

/-- A context whose undo stack is exactly full (50 batches). -/
def full50Ctx : Ctx :=
  { initialCtx [] 100 with undoStack := List.replicate 50 presenceBatchW }

/-- Witness for C3 at a concrete full stack. -/
theorem claim_C3_witness :
    (addToRealUndoStack full50Ctx presenceBatchW).undoStack.length ≤ 50
    ∧ (addToRealUndoStack full50Ctx presenceBatchW).undoStack
        = full50Ctx.undoStack.drop 1 ++ [presenceBatchW] := by
  have h := claim_C3.1 full50Ctx presenceBatchW (by decide)
  exact ⟨h.1, h.2 (by decide)⟩

end Liveblocks
